import Mathlib

/-!
Shallow embedding of `examples/advanced-pytorch/utils.py`: data loading and
splitting (`load_partition`), the per-batch transform (`apply_transforms`),
the training loop (`train`), the evaluation loop (`test`) and the classifier
surgery helper (`replace_classifying_layer`).

Modelling conventions.
* Machine floats are modelled as `ℚ`; the external tensor library's forward
  pass, loss function and gradient step are abstract parameters (`fwd`,
  `criterion`, `stepFn`), since the source delegates them wholesale to torch.
* A mutable `net` object is threaded explicitly: each function returns the
  state of the net after the call, and the `.to(device)` relocations it
  performed, in order, as a `moves` list.
* A Python exception (the `ZeroDivisionError` of `correct /
  len(testloader.dataset)` on an empty dataset) is modelled by an `Option`
  result: `none` means the call raised instead of returning.
-/

/-- A compute device: `torch.device("cpu")` or an accelerator. -/
inductive Device where
  | cpu
  | cuda
deriving DecidableEq, Repr

/-- A batch as produced by the data loader: a mapping with an ordered list of
images under key img and a parallel list of integer class labels under key
label. -/
structure Batch (Image : Type) where
  img : List Image
  label : List Nat
deriving DecidableEq, Repr

/-- A `torch.utils.data.DataLoader`: the sequence of batches produced by
iterating it, together with `len(loader.dataset)`, the size of its underlying
dataset. -/
structure Loader (Image : Type) where
  batches : List (Batch Image)
  datasetSize : Nat
deriving DecidableEq, Repr

/-- A loader is consistent when its batches partition its dataset: the dataset
size equals the total number of labelled examples over all batches. This is a
property of `torch.utils.data.DataLoader`, stated as a hypothesis. -/
def Loader.consistent {Image : Type} (l : Loader Image) : Prop :=
  l.datasetSize = (l.batches.map (fun b => b.label.length)).sum

/-- The mutable model object: its weight tensors (abstract parameter state
`P`) and the device it currently resides on. -/
structure Net (P : Type) where
  params : P
  dev : Device
deriving DecidableEq, Repr

/-- Index of the first maximal entry of a list of scores: the index component
of `torch.max(outputs.data, 1)` for one row. -/
def argmaxAux : List ℚ → Nat → Nat → ℚ → Nat
  | [], _, bi, _ => bi
  | x :: rest, i, bi, bv =>
    if bv < x then argmaxAux rest (i + 1) i x else argmaxAux rest (i + 1) bi bv

/-- Top-1 prediction for one output row. -/
def argmax : List ℚ → Nat
  | [] => 0
  | x :: rest => argmaxAux rest 1 0 x

section Eval

variable {P Image : Type}
variable (fwd : P → Image → List ℚ)
variable (criterion : List (List ℚ) → List Nat → ℚ)

/-- Accumulator of the evaluation loop body: the running `correct` count, the
running `loss`, and how many batches were processed. -/
structure TestAcc where
  correct : Nat
  loss : ℚ
  nproc : Nat
deriving DecidableEq, Repr

/-- The `for batch_idx, batch in enumerate(testloader)` loop of `test`: for
each batch, run the forward pass, add the criterion value to the loss, add
the count of top-1 predictions equal to the labels to `correct`; after
processing a batch, break if `steps is not None and batch_idx == steps`. -/
def testLoop (p : P) : List (Batch Image) → Nat → Option Nat → TestAcc
  | [], _, _ => ⟨0, 0, 0⟩
  | b :: rest, idx, steps =>
    let outputs := b.img.map (fwd p)
    let predicted := outputs.map argmax
    let c := (predicted.zip b.label).countP (fun q => q.1 == q.2)
    let l := criterion outputs b.label
    if steps = some idx then ⟨c, l, 1⟩
    else
      let r := testLoop p rest (idx + 1) steps
      ⟨c + r.correct, l + r.loss, 1 + r.nproc⟩

/-- Result of one `test` call: `ret` is the returned `(loss, accuracy)` pair
(`none` when the call raised `ZeroDivisionError` at the accuracy line), `net`
the state of the model object after the call, `moves` the `.to` relocations
performed in order, `nproc` the number of batches the loop processed. -/
structure TestResult (P : Type) where
  ret : Option (ℚ × ℚ)
  net : Net P
  moves : List Device
  nproc : Nat
deriving DecidableEq, Repr

/-- The function `test(net, testloader, steps, device)`: moves the net to
`device`, runs the evaluation loop, computes
`accuracy = correct / len(testloader.dataset)` (raising on an empty dataset,
in which case the net stays on `device`), moves the net back to cpu and
returns `(loss, accuracy)`. -/
def test (net : Net P) (testloader : Loader Image) (steps : Option Nat)
    (device : Device) : TestResult P :=
  let net1 : Net P := { net with dev := device }
  let a := testLoop fwd criterion net1.params testloader.batches 0 steps
  if testloader.datasetSize = 0 then
    { ret := none, net := net1, moves := [device], nproc := a.nproc }
  else
    { ret := some (a.loss, (a.correct : ℚ) / (testloader.datasetSize : ℚ)),
      net := { net1 with dev := Device.cpu },
      moves := [device, Device.cpu],
      nproc := a.nproc }

end Eval

section Train

variable {P Image : Type}
variable (fwd : P → Image → List ℚ)
variable (criterion : List (List ℚ) → List Nat → ℚ)
variable (stepFn : P → Batch Image → P)

/-- One observable operation of the training loop body. `optStep` records the
hyperparameters the optimizer was constructed with: learning rate, momentum,
weight decay. -/
inductive TrainEvent where
  | zeroGrad
  | lossComputed (value : ℚ)
  | backward
  | optStep (lr momentum weightDecay : ℚ)
deriving DecidableEq, Repr

/-- The body of the inner loop of `train`, one batch: `optimizer.zero_grad()`;
`loss = criterion(net(images), labels)`; `loss.backward()`;
`optimizer.step()`. The parameter update performed by backward+step is the
abstract `stepFn`; the optimizer was constructed as
`torch.optim.SGD(net.parameters(), lr=0.1, momentum=0.9, weight_decay=1e-4)`. -/
def trainBatch (p : P) (b : Batch Image) : P × List TrainEvent :=
  (stepFn p b,
   [TrainEvent.zeroGrad,
    TrainEvent.lossComputed (criterion (b.img.map (fwd p)) b.label),
    TrainEvent.backward,
    TrainEvent.optStep (1 / 10) (9 / 10) (1 / 10000)])

/-- One full pass of the inner loop over the training loader's batches. -/
def trainPass (p : P) : List (Batch Image) → P × List TrainEvent
  | [] => (p, [])
  | b :: rest =>
    let r := trainBatch fwd criterion stepFn p b
    let r2 := trainPass r.1 rest
    (r2.1, r.2 ++ r2.2)

/-- The outer `for _ in range(epochs)` loop of `train`. -/
def trainEpochs : Nat → P → List (Batch Image) → P × List TrainEvent
  | 0, p, _ => (p, [])
  | n + 1, p, bs =>
    let r := trainPass fwd criterion stepFn p bs
    let r2 := trainEpochs n r.1 bs
    (r2.1, r.2 ++ r2.2)

/-- The results dictionary returned by `train`. -/
structure Results where
  train_loss : ℚ
  train_accuracy : ℚ
  val_loss : ℚ
  val_accuracy : ℚ
deriving DecidableEq, Repr

/-- Result of one `train` call: the returned results record (`none` when an
inner `test` raised), the model state after the call, the event trace of the
training phase, and the device relocations in order. -/
structure TrainResult (P : Type) where
  results : Option Results
  net : Net P
  trace : List TrainEvent
  moves : List Device
deriving DecidableEq, Repr

/-- The function `train(net, trainloader, valloader, epochs, device)`: moves
the net to `device`, runs `epochs` passes of the inner loop, moves the net
back to cpu, then evaluates with `test(net, trainloader)` and
`test(net, valloader)` (both with default `steps=None`, `device=cpu`) and
returns the four metrics. An exception from either inner `test` propagates. -/
def train (net : Net P) (trainloader valloader : Loader Image) (epochs : Nat)
    (device : Device) : TrainResult P :=
  let net1 : Net P := { net with dev := device }
  let r := trainEpochs fwd criterion stepFn epochs net1.params trainloader.batches
  let net2 : Net P := { params := r.1, dev := Device.cpu }
  let t1 := test fwd criterion net2 trainloader none Device.cpu
  match t1.ret with
  | none =>
    { results := none, net := t1.net, trace := r.2,
      moves := device :: Device.cpu :: t1.moves }
  | some res1 =>
    let t2 := test fwd criterion t1.net valloader none Device.cpu
    match t2.ret with
    | none =>
      { results := none, net := t2.net, trace := r.2,
        moves := device :: Device.cpu :: (t1.moves ++ t2.moves) }
    | some res2 =>
      { results := some
          { train_loss := res1.1, train_accuracy := res1.2,
            val_loss := res2.1, val_accuracy := res2.2 },
        net := t2.net, trace := r.2,
        moves := device :: Device.cpu :: (t1.moves ++ t2.moves) }

end Train

/-- An image value at the shape level: a raw PIL-style image of a given
height and width, or a channels-first numeric tensor of a given shape. The
pixel contents live in the external tensor library and are abstracted; the
claims about the transform concern shapes and mutation only. -/
inductive ImageData where
  | pil (h w : Nat)
  | tensor (c h w : Nat)
deriving DecidableEq, Repr

/-- Modelled from the spec: torchvision `Resize(256)` scales an image so its
shorter side is 256, preserving aspect ratio. The external library's exact
rounding of the longer side is immaterial here, since the next stage crops to
a fixed size; truncating division stands in for it. -/
def resize256 : ImageData → ImageData
  | ImageData.pil h w =>
    if h ≤ w then ImageData.pil 256 (256 * w / h) else ImageData.pil (256 * h / w) 256
  | ImageData.tensor c h w =>
    if h ≤ w then ImageData.tensor c 256 (256 * w / h) else ImageData.tensor c (256 * h / w) 256

/-- Modelled from the spec: torchvision `CenterCrop(224)` yields a 224-by-224
image. -/
def centerCrop224 : ImageData → ImageData
  | ImageData.pil _ _ => ImageData.pil 224 224
  | ImageData.tensor c _ _ => ImageData.tensor c 224 224

/-- Modelled from the spec: torchvision `ToTensor()` converts a raw image to a
channels-first numeric tensor (3 channels for the RGB images of cifar10). -/
def toTensor : ImageData → ImageData
  | ImageData.pil h w => ImageData.tensor 3 h w
  | ImageData.tensor c h w => ImageData.tensor c h w

/-- Modelled from the spec: torchvision `Normalize(mean, std)` rescales pixel
values per channel with the fixed constants; at the shape level it preserves
the tensor unchanged. -/
def normalizeMeanStd : ImageData → ImageData
  | t => t

/-- The `pytorch_transforms` composite built in `apply_transforms`:
`Compose([Resize(256), CenterCrop(224), ToTensor(), Normalize(...)])`. -/
def pytorch_transforms (i : ImageData) : ImageData :=
  normalizeMeanStd (toTensor (centerCrop224 (resize256 i)))

/-- A batch as `apply_transforms` receives it. -/
structure TBatch where
  img : List ImageData
  label : List Nat
deriving DecidableEq, Repr

/-- The function `apply_transforms(batch)`: the statement
`batch["img"] = [pytorch_transforms(img) for img in batch["img"]]` assigns
into the batch mapping itself, then `return batch` returns that same mapping.
The first component is the returned value, the second the state of the input
mapping after the call; the assignment makes them the same updated mapping. -/
def apply_transforms (batch : TBatch) : TBatch × TBatch :=
  let b := { batch with img := batch.img.map pytorch_transforms }
  (b, b)

/-- A `torch.nn.Linear(in_features, out_features)` layer, at the dimension
level; its freshly initialized weight tensor lives in the external library
and is abstracted. -/
structure Linear where
  in_features : Nat
  out_features : Nat
deriving DecidableEq, Repr

/-- The classifier sub-component of the efficientnet model: its final linear
layer `fc` plus its remaining sub-modules (pooling, dropout, ...), abstracted
as `rest`. -/
structure Classifier (R : Type) where
  fc : Linear
  rest : R
deriving DecidableEq, Repr

/-- The pretrained model fetched from the hub: all sub-modules and parameters
outside the classifier, abstracted as `features`, plus the classifier. -/
structure EfficientNet (F R : Type) where
  features : F
  classifier : Classifier R
deriving DecidableEq, Repr

/-- The function `replace_classifying_layer(efficientnet_model, num_classes)`:
reads `num_features = model.classifier.fc.in_features` and assigns
`model.classifier.fc = torch.nn.Linear(num_features, num_classes)`. It has no
return statement; the model state after the call is the whole effect. -/
def replace_classifying_layer {F R : Type} (efficientnet_model : EfficientNet F R)
    (num_classes : Nat) : EfficientNet F R :=
  let num_features := efficientnet_model.classifier.fc.in_features
  { efficientnet_model with
    classifier := { efficientnet_model.classifier with
      fc := { in_features := num_features, out_features := num_classes } } }

/-- The cifar10 train split has 50000 examples. -/
def cifar10TrainSize : Nat := 50000

/-- Modelled from the spec: the external federated-dataset provider
(`FederatedDataset(dataset="cifar10", partitioners={"train": 10})`) divides
the `n` examples into `numParts` contiguous iid shards; shard `i` covers
indices from `n * i / numParts` to `n * (i+1) / numParts`. -/
def iidPartitionSize (n numParts i : Nat) : Nat :=
  n * (i + 1) / numParts - n * i / numParts

/-- Modelled from the spec: the external `train_test_split(test_size=0.2)` of
a partition of `n` examples puts `ceil(0.2 * n)` examples in the test subset
and the rest in the train subset. Returns (train size, test size). -/
def train_test_split (n : Nat) : Nat × Nat :=
  (n - (n + 4) / 5, (n + 4) / 5)

/-- The function `load_partition(node_id)`: selects the shard of cifar10's
train split for `node_id` out of 10 partitions, splits it 80/20 and applies
the transform lazily. At the size level it yields the train and test subset
sizes; an out-of-range identifier fails (signalled by the external provider),
modelled as `none`. -/
def load_partition (node_id : Nat) : Option (Nat × Nat) :=
  if node_id < 10 then some (train_test_split (iidPartitionSize cifar10TrainSize 10 node_id))
  else none

section SpecSide

variable {P Image : Type}
variable (fwd : P → Image → List ℚ)
variable (criterion : List (List ℚ) → List Nat → ℚ)
variable (stepFn : P → Batch Image → P)

/-- From the spec (§4.4): the operations performed for one batch, in order:
zero accumulated gradients, compute a cross-entropy loss between model output
and labels, back-propagate, apply one optimizer step with learning rate 0.1,
momentum 0.9, weight decay 1e-4. -/
def specBlock (value : ℚ) : List TrainEvent :=
  [TrainEvent.zeroGrad, TrainEvent.lossComputed value, TrainEvent.backward,
   TrainEvent.optStep (1 / 10) (9 / 10) (1 / 10000)]

/-- The event trace the spec prescribes for a given sequence of per-batch
loss values: one `specBlock` per processed batch, in order. -/
def specTrace : List ℚ → List TrainEvent
  | [] => []
  | v :: rest => specBlock v ++ specTrace rest

/-- The parameter state after one pass over a list of batches, one optimizer
step per batch. -/
def passParams : P → List (Batch Image) → P
  | p, [] => p
  | p, b :: rest => passParams (stepFn p b) rest

/-- The per-batch loss values of one pass: for each batch, the criterion
applied to the model's outputs on the batch images (under the parameters
current at that batch) and the batch labels. -/
def passLosses : P → List (Batch Image) → List ℚ
  | _, [] => []
  | p, b :: rest =>
    criterion (b.img.map (fwd p)) b.label :: passLosses (stepFn p b) rest

/-- The per-batch loss values of `epochs` full passes over the loader, the
parameters carried from each pass into the next. -/
def specLosses : Nat → P → List (Batch Image) → List ℚ
  | 0, _, _ => []
  | n + 1, p, bs =>
    passLosses fwd criterion stepFn p bs ++
      specLosses n (passParams stepFn p bs) bs

/-- Number of optimizer-step events in a trace. -/
def countOptSteps (tr : List TrainEvent) : Nat :=
  tr.countP (fun e => match e with | TrainEvent.optStep _ _ _ => true | _ => false)

end SpecSide

section Lemmas

variable {P Image : Type}
variable (fwd : P → Image → List ℚ)
variable (criterion : List (List ℚ) → List Nat → ℚ)
variable (stepFn : P → Batch Image → P)

/-- On an empty dataset, `test` raises at the accuracy line: no value is
returned and the net is left on the target device. -/
theorem test_empty_eq (n : Net P) (l : Loader Image) (s : Option Nat) (d : Device)
    (h : l.datasetSize = 0) :
    test fwd criterion n l s d =
      ⟨none, ⟨n.params, d⟩, [d], (testLoop fwd criterion n.params l.batches 0 s).nproc⟩ := by
  unfold test
  simp [h]

/-- On a non-empty dataset, `test` returns the accumulated loss and the
accuracy, with the net moved back to cpu. -/
theorem test_nonempty_eq (n : Net P) (l : Loader Image) (s : Option Nat) (d : Device)
    (h : l.datasetSize ≠ 0) :
    test fwd criterion n l s d =
      ⟨some ((testLoop fwd criterion n.params l.batches 0 s).loss,
             ((testLoop fwd criterion n.params l.batches 0 s).correct : ℚ) / (l.datasetSize : ℚ)),
       ⟨n.params, Device.cpu⟩, [d, Device.cpu],
       (testLoop fwd criterion n.params l.batches 0 s).nproc⟩ := by
  unfold test
  simp [h]

/-- When the training loader's dataset is empty, the first inner `test` of
`train` raises and `train` returns no results. -/
theorem train_tl_empty_eq (net : Net P) (tl vl : Loader Image) (e : Nat) (d : Device)
    (h1 : tl.datasetSize = 0) :
    train fwd criterion stepFn net tl vl e d =
      ⟨none, ⟨(trainEpochs fwd criterion stepFn e net.params tl.batches).1, Device.cpu⟩,
       (trainEpochs fwd criterion stepFn e net.params tl.batches).2,
       [d, Device.cpu, Device.cpu]⟩ := by
  simp only [train]
  rw [test_empty_eq fwd criterion _ tl none Device.cpu h1]

/-- When only the validation loader's dataset is empty, the second inner
`test` of `train` raises and `train` returns no results. -/
theorem train_vl_empty_eq (net : Net P) (tl vl : Loader Image) (e : Nat) (d : Device)
    (h1 : tl.datasetSize ≠ 0) (h2 : vl.datasetSize = 0) :
    train fwd criterion stepFn net tl vl e d =
      ⟨none, ⟨(trainEpochs fwd criterion stepFn e net.params tl.batches).1, Device.cpu⟩,
       (trainEpochs fwd criterion stepFn e net.params tl.batches).2,
       [d, Device.cpu, Device.cpu, Device.cpu, Device.cpu]⟩ := by
  simp only [train]
  rw [test_nonempty_eq fwd criterion _ tl none Device.cpu h1]
  rw [test_empty_eq fwd criterion _ vl none Device.cpu h2]
  rfl

/-- When both datasets are non-empty, `train` returns the four metrics of the
two inner `test` calls, the net on cpu with the trained parameters. -/
theorem train_nonempty_eq (net : Net P) (tl vl : Loader Image) (e : Nat) (d : Device)
    (h1 : tl.datasetSize ≠ 0) (h2 : vl.datasetSize ≠ 0) :
    train fwd criterion stepFn net tl vl e d =
      ⟨some ⟨(testLoop fwd criterion (trainEpochs fwd criterion stepFn e net.params tl.batches).1 tl.batches 0 none).loss,
             ((testLoop fwd criterion (trainEpochs fwd criterion stepFn e net.params tl.batches).1 tl.batches 0 none).correct : ℚ) / (tl.datasetSize : ℚ),
             (testLoop fwd criterion (trainEpochs fwd criterion stepFn e net.params tl.batches).1 vl.batches 0 none).loss,
             ((testLoop fwd criterion (trainEpochs fwd criterion stepFn e net.params tl.batches).1 vl.batches 0 none).correct : ℚ) / (vl.datasetSize : ℚ)⟩,
       ⟨(trainEpochs fwd criterion stepFn e net.params tl.batches).1, Device.cpu⟩,
       (trainEpochs fwd criterion stepFn e net.params tl.batches).2,
       [d, Device.cpu, Device.cpu, Device.cpu, Device.cpu, Device.cpu]⟩ := by
  simp only [train]
  rw [test_nonempty_eq fwd criterion _ tl none Device.cpu h1]
  rw [test_nonempty_eq fwd criterion _ vl none Device.cpu h2]
  rfl

/-- With a `steps = k` bound and at least `k + 1 - idx` batches remaining,
the evaluation loop starting at index `idx ≤ k` processes exactly
`k + 1 - idx` batches: the batch whose index equals `k` is still processed,
then the loop breaks. -/
theorem testLoop_nproc (p : P) (bs : List (Batch Image)) (idx k : Nat)
    (hik : idx ≤ k) (hlen : k + 1 - idx ≤ bs.length) :
    (testLoop fwd criterion p bs idx (some k)).nproc = k + 1 - idx := by
  induction bs generalizing idx with
  | nil => simp at hlen; omega
  | cons b rest ih =>
    unfold testLoop
    by_cases he : (some k : Option Nat) = some idx
    · have hk : k = idx := by injection he
      simp [he, hk]
    · have hk : k ≠ idx := fun h => he (by rw [h])
      have hik' : idx + 1 ≤ k := by omega
      have hlen' : k + 1 - (idx + 1) ≤ rest.length := by
        simp at hlen; omega
      simp only [he, if_false]
      simp [ih (idx + 1) hik' hlen']
      omega

/-- Without a `steps` bound, or with one the loop never reaches, every batch
is processed; in general the loop never processes more batches than the list
has. -/
theorem testLoop_nproc_le (p : P) (bs : List (Batch Image)) (idx : Nat)
    (steps : Option Nat) :
    (testLoop fwd criterion p bs idx steps).nproc ≤ bs.length := by
  induction bs generalizing idx with
  | nil => simp [testLoop]
  | cons b rest ih =>
    unfold testLoop
    by_cases he : steps = some idx
    · simp [he]
    · simp only [he, if_false]
      simp
      have := ih (idx + 1)
      omega

/-- The loss the evaluation loop accumulates is a sum of criterion values:
when every criterion value is non-negative, so is the accumulated loss. -/
theorem testLoop_loss_nonneg (hcrit : ∀ o lbl, 0 ≤ criterion o lbl)
    (p : P) (bs : List (Batch Image)) (idx : Nat) (steps : Option Nat) :
    0 ≤ (testLoop fwd criterion p bs idx steps).loss := by
  induction bs generalizing idx with
  | nil => simp [testLoop]
  | cons b rest ih =>
    unfold testLoop
    by_cases he : steps = some idx
    · simpa [he] using hcrit (b.img.map (fwd p)) b.label
    · simp only [he, if_false]
      simpa using add_nonneg (hcrit (b.img.map (fwd p)) b.label) (ih (idx + 1))

/-- The correct-prediction count of the evaluation loop never exceeds the
total number of labelled examples over all the loader's batches, whether or
not a `steps` bound cuts the loop short. -/
theorem testLoop_correct_le (p : P) (bs : List (Batch Image)) (idx : Nat)
    (steps : Option Nat) :
    (testLoop fwd criterion p bs idx steps).correct ≤
      (bs.map (fun b => b.label.length)).sum := by
  induction bs generalizing idx with
  | nil => simp [testLoop]
  | cons b rest ih =>
    unfold testLoop
    have hb : (((b.img.map (fwd p)).map argmax).zip b.label).countP
        (fun q => q.1 == q.2) ≤ b.label.length := by
      refine le_trans (List.countP_le_length _) ?_
      rw [List.length_zip]
      exact min_le_right _ _
    by_cases he : steps = some idx
    · simp only [he, if_pos rfl]
      simp only [List.map_cons, List.sum_cons]
      exact le_trans hb (Nat.le_add_right _ _)
    · simp only [he, if_false]
      simp only [List.map_cons, List.sum_cons]
      exact Nat.add_le_add hb (ih (idx + 1))

/-- Splitting a loss sequence splits its prescribed trace. -/
theorem specTrace_append (a b : List ℚ) :
    specTrace (a ++ b) = specTrace a ++ specTrace b := by
  induction a with
  | nil => rfl
  | cons v rest ih => simp [specTrace, ih]

/-- One pass of the training loop produces the parameters after one optimizer
step per batch, and exactly the spec's four-operation block per batch. -/
theorem trainPass_eq (p : P) (bs : List (Batch Image)) :
    trainPass fwd criterion stepFn p bs =
      (passParams stepFn p bs,
       specTrace (passLosses fwd criterion stepFn p bs)) := by
  induction bs generalizing p with
  | nil => rfl
  | cons b rest ih =>
    simp [trainPass, trainBatch, passParams, passLosses, specTrace, specBlock, ih]

/-- The trace of the whole training phase is the spec-prescribed trace of its
per-batch loss sequence. -/
theorem trainEpochs_trace (e : Nat) (p : P) (bs : List (Batch Image)) :
    (trainEpochs fwd criterion stepFn e p bs).2 =
      specTrace (specLosses fwd criterion stepFn e p bs) := by
  induction e generalizing p with
  | zero => rfl
  | succ n ih =>
    simp only [trainEpochs, specLosses, trainPass_eq, specTrace_append]
    rw [ih]

/-- One pass contributes one loss value per batch. -/
theorem passLosses_length (p : P) (bs : List (Batch Image)) :
    (passLosses fwd criterion stepFn p bs).length = bs.length := by
  induction bs generalizing p with
  | nil => rfl
  | cons b rest ih => simp [passLosses, ih]

/-- The training phase computes one loss per batch per epoch. -/
theorem specLosses_length (e : Nat) (p : P) (bs : List (Batch Image)) :
    (specLosses fwd criterion stepFn e p bs).length = e * bs.length := by
  induction e generalizing p with
  | zero => simp [specLosses]
  | succ n ih =>
    simp [specLosses, passLosses_length, ih]
    ring

end Lemmas

/-- A trivial forward map used to evaluate the embedding on concrete inputs:
every image scores class 0 highest. -/
def unitFwd : Unit → Unit → List ℚ := fun _ _ => [1, 0]

/-- A constant non-negative criterion used on concrete inputs. -/
def oneCriterion : List (List ℚ) → List Nat → ℚ := fun _ _ => 1

/-- A trivial parameter update used on concrete inputs. -/
def unitStep : Unit → Batch Unit → Unit := fun _ _ => ()

/-- A concrete net over the trivial parameter space, resident on cpu. -/
def unitNet : Net Unit := ⟨(), Device.cpu⟩

/-- A concrete consistent loader: four batches of one example each, dataset
size four. -/
def fourBatchLoader : Loader Unit :=
  ⟨[⟨[()], [0]⟩, ⟨[()], [0]⟩, ⟨[()], [0]⟩, ⟨[()], [0]⟩], 4⟩

/-- Claim C1: for every call to `test` with a bound `steps = k` on a loader
yielding more than `k + 1` batches, exactly `k + 1` batches are processed
before the loop stops — the loop breaks when the batch index equals
`steps`. -/
theorem C1_test_steps_processes_k_plus_one {P Image : Type}
    (fwd : P → Image → List ℚ) (criterion : List (List ℚ) → List Nat → ℚ)
    (net : Net P) (testloader : Loader Image) (k : Nat) (device : Device)
    (h : k + 1 < testloader.batches.length) :
    (test fwd criterion net testloader (some k) device).nproc = k + 1 := by
  have hn := testLoop_nproc fwd criterion net.params testloader.batches 0 k
    (Nat.zero_le k) (by omega)
  by_cases hd : testloader.datasetSize = 0
  · rw [test_empty_eq fwd criterion net testloader (some k) device hd]
    simpa using hn
  · rw [test_nonempty_eq fwd criterion net testloader (some k) device hd]
    simpa using hn

/-- Claim C1, witness: with `steps = 1` on a four-batch loader, two batches
are processed. -/
theorem C1_test_steps_witness :
    (test unitFwd oneCriterion unitNet fourBatchLoader (some 1) Device.cpu).nproc = 1 + 1 :=
  C1_test_steps_processes_k_plus_one unitFwd oneCriterion unitNet fourBatchLoader 1
    Device.cpu (by decide)

/-- Claim C2: for every call to `test` that returns, the returned accuracy
lies in [0, 1] and the returned accumulated loss is non-negative — including
when a `steps` bound limits how many batches are processed while accuracy is
still divided by the full dataset size. The criterion is cross-entropy, which
is non-negative, and the loader's batches partition its dataset; both facts
of the external libraries enter as hypotheses. -/
theorem C2_test_metrics_in_range {P Image : Type}
    (fwd : P → Image → List ℚ) (criterion : List (List ℚ) → List Nat → ℚ)
    (net : Net P) (testloader : Loader Image) (steps : Option Nat)
    (device : Device) (lo ac : ℚ)
    (hcrit : ∀ o lbl, 0 ≤ criterion o lbl)
    (hcons : testloader.consistent)
    (hret : (test fwd criterion net testloader steps device).ret = some (lo, ac)) :
    0 ≤ lo ∧ 0 ≤ ac ∧ ac ≤ 1 := by
  by_cases hd : testloader.datasetSize = 0
  · rw [test_empty_eq fwd criterion net testloader steps device hd] at hret
    exact absurd hret (by simp)
  · rw [test_nonempty_eq fwd criterion net testloader steps device hd] at hret
    simp only [Option.some.injEq, Prod.mk.injEq] at hret
    obtain ⟨h1, h2⟩ := hret
    subst h1
    subst h2
    refine ⟨testLoop_loss_nonneg fwd criterion hcrit net.params testloader.batches 0 steps,
      div_nonneg (Nat.cast_nonneg _) (Nat.cast_nonneg _), ?_⟩
    have hle : (testLoop fwd criterion net.params testloader.batches 0 steps).correct ≤
        testloader.datasetSize := by
      rw [hcons]
      exact testLoop_correct_le fwd criterion net.params testloader.batches 0 steps
    have hpos : (0 : ℚ) < (testloader.datasetSize : ℚ) := by
      exact_mod_cast Nat.pos_of_ne_zero hd
    rw [div_le_one hpos]
    exact_mod_cast hle

/-- Claim C2, witness: on the four-batch loader the call returns loss 4 and
accuracy 1, which satisfy the bounds. -/
theorem C2_test_metrics_witness : 0 ≤ (4 : ℚ) ∧ 0 ≤ (1 : ℚ) ∧ (1 : ℚ) ≤ 1 :=
  C2_test_metrics_in_range unitFwd oneCriterion unitNet fourBatchLoader none
    Device.cpu 4 1 (fun _ _ => by norm_num [oneCriterion]) rfl (by
      rw [test_nonempty_eq unitFwd oneCriterion unitNet fourBatchLoader none
        Device.cpu (by decide)]
      simp [testLoop, fourBatchLoader, unitNet, unitFwd, oneCriterion, argmax, argmaxAux]
      norm_num)

/-- Claim C3: every call to `train` makes exactly `epochs` full passes over
the training loader, and for each batch performs, in order: zero accumulated
gradients, compute a cross-entropy loss between the model output and the
labels, back-propagate, and apply one optimizer step with learning rate 0.1,
momentum 0.9, weight decay 1e-4 — the training trace is the spec-prescribed
block per batch, with one loss per batch per epoch. -/
theorem C3_train_epoch_batch_structure {P Image : Type}
    (fwd : P → Image → List ℚ) (criterion : List (List ℚ) → List Nat → ℚ)
    (stepFn : P → Batch Image → P) (net : Net P)
    (trainloader valloader : Loader Image) (epochs : Nat) (device : Device) :
    (train fwd criterion stepFn net trainloader valloader epochs device).trace =
      specTrace (specLosses fwd criterion stepFn epochs net.params trainloader.batches) ∧
    (specLosses fwd criterion stepFn epochs net.params trainloader.batches).length =
      epochs * trainloader.batches.length := by
  constructor
  · have ht : (train fwd criterion stepFn net trainloader valloader epochs device).trace =
        (trainEpochs fwd criterion stepFn epochs net.params trainloader.batches).2 := by
      by_cases h1 : trainloader.datasetSize = 0
      · rw [train_tl_empty_eq fwd criterion stepFn net trainloader valloader epochs device h1]
      · by_cases h2 : valloader.datasetSize = 0
        · rw [train_vl_empty_eq fwd criterion stepFn net trainloader valloader epochs device h1 h2]
        · rw [train_nonempty_eq fwd criterion stepFn net trainloader valloader epochs device h1 h2]
    rw [ht, trainEpochs_trace]
  · exact specLosses_length fwd criterion stepFn epochs net.params trainloader.batches

/-- Claim C4: after `replace_classifying_layer`, the classifier's final
linear layer has output dimension equal to the requested classes and input
dimension equal to the original layer's input dimension. -/
theorem C4_replace_layer_dimensions {F R : Type} (model : EfficientNet F R)
    (classes : Nat) :
    (replace_classifying_layer model classes).classifier.fc.out_features = classes ∧
    (replace_classifying_layer model classes).classifier.fc.in_features =
      model.classifier.fc.in_features :=
  ⟨rfl, rfl⟩

/-- Claim C5, counterexample: on a batch holding one raw 32-by-32 cifar
image, the input batch mapping after the call differs from the batch passed
in — `apply_transforms` is not side-effect-free, it reassigns the img entry
of its argument. -/
theorem C5_apply_transforms_purity_cex :
    (apply_transforms ⟨[ImageData.pil 32 32], [3]⟩).2 ≠ ⟨[ImageData.pil 32 32], [3]⟩ := by
  decide

/-- Claim C5 (amended): `apply_transforms` mutates the input batch mapping in
place — its img entry is replaced by the transformed images, its label entry
is untouched — and the returned value is that same mutated mapping, so the
transformed images appear both in the return value and in the caller's
batch. -/
theorem C5_apply_transforms_mutates_in_place (batch : TBatch) :
    (apply_transforms batch).2 = (apply_transforms batch).1 ∧
    (apply_transforms batch).1.img = batch.img.map pytorch_transforms ∧
    (apply_transforms batch).1.label = batch.label :=
  ⟨rfl, rfl, rfl⟩

/-- Claim C6: for every valid partition identifier in range,
`load_partition` returns a train subset and a test subset whose sizes sum to
the partition's total size, with the test subset holding approximately 20
percent of the partition (within rounding: 5 times the test size is within 4
of the total). -/
theorem C6_load_partition_split_sizes (node_id : Nat) (h : node_id < 10) :
    ∃ tr te, load_partition node_id = some (tr, te) ∧
      tr + te = iidPartitionSize cifar10TrainSize 10 node_id ∧
      iidPartitionSize cifar10TrainSize 10 node_id ≤ 5 * te ∧
      5 * te ≤ iidPartitionSize cifar10TrainSize 10 node_id + 4 := by
  interval_cases node_id <;>
    exact ⟨4000, 1000, by decide, by decide, by decide, by decide⟩

/-- Claim C6, witness: partition 3 splits into 4000 train and 1000 test
examples out of 5000. -/
theorem C6_load_partition_witness :
    ∃ tr te, load_partition 3 = some (tr, te) ∧
      tr + te = iidPartitionSize cifar10TrainSize 10 3 ∧
      iidPartitionSize cifar10TrainSize 10 3 ≤ 5 * te ∧
      5 * te ≤ iidPartitionSize cifar10TrainSize 10 3 + 4 :=
  C6_load_partition_split_sizes 3 (by decide)

/-- Claim C7: every call to `train` or `test` moves the model to the target
compute device at entry (the first relocation is to `device`) and back to
host memory at exit: whenever the call returns normally, the last relocation
is to cpu and the model ends resident on cpu. -/
theorem C7_device_relocation {P Image : Type}
    (fwd : P → Image → List ℚ) (criterion : List (List ℚ) → List Nat → ℚ)
    (stepFn : P → Batch Image → P) (net : Net P)
    (trainloader valloader testloader : Loader Image) (steps : Option Nat)
    (epochs : Nat) (device : Device) :
    ((test fwd criterion net testloader steps device).moves.head? = some device ∧
     ((test fwd criterion net testloader steps device).ret.isSome →
       (test fwd criterion net testloader steps device).net.dev = Device.cpu ∧
       (test fwd criterion net testloader steps device).moves.getLast? = some Device.cpu)) ∧
    ((train fwd criterion stepFn net trainloader valloader epochs device).moves.head? = some device ∧
     ((train fwd criterion stepFn net trainloader valloader epochs device).results.isSome →
       (train fwd criterion stepFn net trainloader valloader epochs device).net.dev = Device.cpu ∧
       (train fwd criterion stepFn net trainloader valloader epochs device).moves.getLast? = some Device.cpu)) := by
  constructor
  · by_cases hd : testloader.datasetSize = 0
    · rw [test_empty_eq fwd criterion net testloader steps device hd]
      exact ⟨rfl, by intro hs; simp at hs⟩
    · rw [test_nonempty_eq fwd criterion net testloader steps device hd]
      exact ⟨rfl, fun _ => ⟨rfl, rfl⟩⟩
  · by_cases h1 : trainloader.datasetSize = 0
    · rw [train_tl_empty_eq fwd criterion stepFn net trainloader valloader epochs device h1]
      exact ⟨rfl, by intro hs; simp at hs⟩
    · by_cases h2 : valloader.datasetSize = 0
      · rw [train_vl_empty_eq fwd criterion stepFn net trainloader valloader epochs device h1 h2]
        exact ⟨rfl, by intro hs; simp at hs⟩
      · rw [train_nonempty_eq fwd criterion stepFn net trainloader valloader epochs device h1 h2]
        exact ⟨rfl, fun _ => ⟨rfl, rfl⟩⟩

/-- Claim C8: `test` divides the correct count by the size of the loader's
underlying dataset; on an empty dataset that division raises, so `test`
returns normally exactly when the dataset is non-empty. -/
theorem C8_test_returns_iff_dataset_nonempty {P Image : Type}
    (fwd : P → Image → List ℚ) (criterion : List (List ℚ) → List Nat → ℚ)
    (net : Net P) (testloader : Loader Image) (steps : Option Nat)
    (device : Device) :
    (test fwd criterion net testloader steps device).ret.isSome ↔
      testloader.datasetSize ≠ 0 := by
  by_cases hd : testloader.datasetSize = 0
  · rw [test_empty_eq fwd criterion net testloader steps device hd]
    simp [hd]
  · rw [test_nonempty_eq fwd criterion net testloader steps device hd]
    simp [hd]

/-- Claim C9: `replace_classifying_layer` changes only the classifier's fc
sub-component: every other sub-module and parameter of the model — all of
`features` and the rest of the classifier — is unchanged by the call, whose
whole effect is the updated model state (the source function returns
nothing). -/
theorem C9_replace_layer_frame {F R : Type} (model : EfficientNet F R)
    (classes : Nat) :
    (replace_classifying_layer model classes).features = model.features ∧
    (replace_classifying_layer model classes).classifier.rest = model.classifier.rest :=
  ⟨rfl, rfl⟩

/-- Claim C10: calling `train` with `epochs = 0` performs zero optimizer
updates and leaves the model parameters unchanged, yet still evaluates the
model on both the training loader and the validation loader and returns the
record with all four metrics (the inner evaluations return because both
datasets are non-empty). -/
theorem C10_train_zero_epochs {P Image : Type}
    (fwd : P → Image → List ℚ) (criterion : List (List ℚ) → List Nat → ℚ)
    (stepFn : P → Batch Image → P) (net : Net P)
    (trainloader valloader : Loader Image) (device : Device)
    (h1 : trainloader.datasetSize ≠ 0) (h2 : valloader.datasetSize ≠ 0) :
    (train fwd criterion stepFn net trainloader valloader 0 device).net.params = net.params ∧
    countOptSteps (train fwd criterion stepFn net trainloader valloader 0 device).trace = 0 ∧
    ∃ rt rv : ℚ × ℚ,
      (test fwd criterion ⟨net.params, Device.cpu⟩ trainloader none Device.cpu).ret = some rt ∧
      (test fwd criterion ⟨net.params, Device.cpu⟩ valloader none Device.cpu).ret = some rv ∧
      (train fwd criterion stepFn net trainloader valloader 0 device).results =
        some ⟨rt.1, rt.2, rv.1, rv.2⟩ := by
  rw [train_nonempty_eq fwd criterion stepFn net trainloader valloader 0 device h1 h2]
  refine ⟨rfl, rfl,
    ⟨((testLoop fwd criterion net.params trainloader.batches 0 none).loss,
      ((testLoop fwd criterion net.params trainloader.batches 0 none).correct : ℚ) /
        (trainloader.datasetSize : ℚ)),
     ((testLoop fwd criterion net.params valloader.batches 0 none).loss,
      ((testLoop fwd criterion net.params valloader.batches 0 none).correct : ℚ) /
        (valloader.datasetSize : ℚ)),
     ?_, ?_, rfl⟩⟩
  · rw [test_nonempty_eq fwd criterion ⟨net.params, Device.cpu⟩ trainloader none Device.cpu h1]
  · rw [test_nonempty_eq fwd criterion ⟨net.params, Device.cpu⟩ valloader none Device.cpu h2]

/-- Claim C10, witness: with zero epochs on the concrete loaders, the
parameters come back unchanged. -/
theorem C10_train_zero_epochs_witness :
    (train unitFwd oneCriterion unitStep unitNet fourBatchLoader fourBatchLoader 0
      Device.cpu).net.params = unitNet.params :=
  (C10_train_zero_epochs unitFwd oneCriterion unitStep unitNet fourBatchLoader
    fourBatchLoader Device.cpu (by decide) (by decide)).1
